import Mathlib

/-!
Shallow embedding of the sky_monitor_edge core: the storage eviction
manager (`edge_monitor/CircularBuffer.cpp`) and the upload pipeline
(`XIAO_ESP32S3/record_video_and_upload/VideoUploader.cpp`).

The SD card is modelled as a listing of root-directory files (name, size,
last-modified time) plus the card's total capacity and the bytes used by
data other than the listed files.  Pure functions mirror the C++ methods;
the `while` loops become fuel-based recursions whose fuel is chosen large
enough never to cut a loop short (proved below).  The `unsigned long`
(32-bit) timer arithmetic of the ESP32 build is modelled by explicit
subtraction modulo 2^32.  String suffix/prefix tests are defined over the
character list of the string, extensionally matching `String::endsWith`
and `String::startsWith`, so that all definitions evaluate by `decide`.
-/

namespace SkyMonitor

/-- `s` ends with `p` (the `fileName.endsWith(".avi")` test), defined over
character lists so the kernel can evaluate it. -/
def strEndsWith (s p : String) : Bool :=
  decide (s.data.drop (s.data.length - p.data.length) = p.data)

/-- `s` starts with `p` (the `response.startsWith("HTTP/1.1 ")` test). -/
def strStartsWith (s p : String) : Bool :=
  decide (s.data.take p.data.length = p.data)

/-- Subtraction of `unsigned long` (32-bit) values as on the ESP32:
`a - b` computed modulo `2^32`. -/
def sub32 (a b : Nat) : Nat :=
  (a + (4294967296 - b % 4294967296)) % 4294967296

/-- One file in the SD card's root directory: `file.name()`, `file.size()`,
`file.getLastWrite()`. -/
structure VFile where
  name : String
  size : Nat
  mtime : Nat
deriving DecidableEq, Repr

/-- The SD card state seen through the `SD` API: total capacity, bytes used
by anything other than the listed root files, and the root file listing. -/
structure SDCard where
  totalBytes : Nat
  otherUsedBytes : Nat
  files : List VFile
deriving DecidableEq, Repr

/-- A file is recognized as a video segment when its name ends in `.avi`
(`fileName.endsWith(".avi")`). -/
def isAvi (f : VFile) : Bool := strEndsWith f.name ".avi"

/-- The full path under which a root file is addressed: `"/" + fileName`. -/
def pathOf (f : VFile) : String := "/" ++ f.name

/-- `SD.usedBytes()`: everything on the card. -/
def usedBytes (card : SDCard) : Nat :=
  card.otherUsedBytes + (card.files.map (fun f => f.size)).sum

/-- `(SD.totalBytes() - SD.usedBytes()) / (1024 * 1024)` as computed in
`checkAndManageStorage`. -/
def freeSpaceMB (card : SDCard) : Nat :=
  (card.totalBytes - usedBytes card) / (1024 * 1024)

/-- `CircularBuffer::getVideoStorageUsed`: total bytes of `.avi` files. -/
def getVideoStorageUsed (files : List VFile) : Nat :=
  ((files.filter isAvi).map (fun f => f.size)).sum

/-- `getVideoStorageUsed() / (1024 * 1024)`. -/
def videoStorageMB (card : SDCard) : Nat :=
  getVideoStorageUsed card.files / (1024 * 1024)

/-- `CircularBuffer::countVideoFiles`: number of `.avi` files in root. -/
def countVideoFiles (files : List VFile) : Nat :=
  (files.filter isAvi).length

/-- The accumulator loop of `CircularBuffer::getOldestVideoFile`:
carries `oldestFile`, `oldestTime`, `foundFirst` over the directory walk. -/
def getOldestGo : List VFile → String → Nat → Bool → String
  | [], oldest, _, _ => oldest
  | f :: fs, oldest, oldT, found =>
      if isAvi f = true ∧ (found = false ∨ f.mtime < oldT) then
        getOldestGo fs (pathOf f) f.mtime true
      else
        getOldestGo fs oldest oldT found

/-- `CircularBuffer::getOldestVideoFile`: path (`"/" + name`) of the first
`.avi` file attaining the minimal last-write time, or `""` if none. -/
def getOldestVideoFile (files : List VFile) : String :=
  getOldestGo files "" 0 false

/-- The queue-reconciliation loop in `checkAndManageStorage`: erase the
first occurrence of `p` from the vector, then break. -/
def eraseFirst : List String → String → List String
  | [], _ => []
  | x :: xs, p => if x = p then xs else x :: eraseFirst xs p

/-- The listing effect of a successful `SD.remove(path)`: locate and drop
the first file whose full path equals `p`, returning the file removed;
`none` when no such file exists.  A delete that fails although the file
exists is modelled separately, by the `deleteOk` oracle of the cleanup
loop, since `SD.remove` can refuse an existing file too. -/
def removeByPath : List VFile → String → Option (VFile × List VFile)
  | [], _ => none
  | f :: fs, p =>
      if pathOf f = p then some (f, fs)
      else (removeByPath fs p).map (fun r => (r.1, f :: r.2))

/-- Storage policy configuration of `CircularBuffer`. -/
structure CBConfig where
  maxStorageMB : Nat
  minFreeSpaceMB : Nat
  enableCircularBuffer : Bool
deriving DecidableEq, Repr

/-- `needCleanup` as recomputed at each eviction iteration:
`freeSpaceMB < minFreeSpaceMB || videoStorageMB > maxStorageMB`. -/
def needCleanup (cfg : CBConfig) (card : SDCard) : Prop :=
  freeSpaceMB card < cfg.minFreeSpaceMB ∨ cfg.maxStorageMB < videoStorageMB card

instance (cfg : CBConfig) (card : SDCard) : Decidable (needCleanup cfg card) := by
  unfold needCleanup; infer_instance

/-- One recorded eviction step: the root listing at the moment of the
step, the victim path chosen by `getOldestVideoFile`, and the file the
delete actually removed. -/
structure EvStep where
  filesBefore : List VFile
  victimPath : String
  victim : VFile
deriving DecidableEq, Repr

/-- Result of the cleanup loop of `checkAndManageStorage`: the final
card, the reconciled queue, the trace of successful deletions (`steps`),
and `erased` — the paths of all selected victims, in order, whose queue
entries were erased.  `SD.remove` runs after the queue erase, so when a
delete fails `erased` holds one more path than `steps`: that victim's
queue entry is gone although its file is still on the card. -/
structure CleanupResult where
  card : SDCard
  queue : List String
  steps : List EvStep
  erased : List String
deriving DecidableEq, Repr

/-- The `while (needCleanup && countVideoFiles() > 1)` eviction loop of
`CircularBuffer::checkAndManageStorage`, with fuel.  Each iteration picks
the oldest video, erases it from the supplied upload queue, then calls
`SD.remove`, and re-evaluates the thresholds.  An empty victim path
breaks the loop before the queue erase; a failed delete — either because
no file carries the path (`removeByPath` is `none`) or because the card
refused the delete of an existing file (`deleteOk k = false` for the k-th
iteration) — breaks the loop after it, as in the source. -/
def cleanupLoop (cfg : CBConfig) (deleteOk : Nat → Bool) :
    Nat → Nat → SDCard → List String → CleanupResult
  | 0, _, card, queue => ⟨card, queue, [], []⟩
  | fuel + 1, k, card, queue =>
      if needCleanup cfg card ∧ 1 < countVideoFiles card.files then
        let oldest := getOldestVideoFile card.files
        if oldest = "" then ⟨card, queue, [], []⟩
        else
          let queue1 := eraseFirst queue oldest
          match removeByPath card.files oldest with
          | none => ⟨card, queue1, [], [oldest]⟩
          | some (g, files1) =>
              if deleteOk k = true then
                let r := cleanupLoop cfg deleteOk fuel (k + 1)
                  { card with files := files1 } queue1
                ⟨r.card, r.queue, ⟨card.files, oldest, g⟩ :: r.steps, oldest :: r.erased⟩
              else ⟨card, queue1, [], [oldest]⟩
      else ⟨card, queue, [], []⟩

/-- `CircularBuffer::checkAndManageStorage(uploadQueue)`: returns the
boolean result (`freeSpaceMB >= minFreeSpaceMB` after cleanup, or `true`
immediately when the circular buffer is disabled) together with the final
card, the reconciled queue and the traces of deletions and queue erases.
`deleteOk` is the environment's verdict on each `SD.remove` of an
existing file.  The fuel `card.files.length` never cuts the loop short
(`cleanupLoop_fuel_irrel`). -/
def checkAndManageStorage (cfg : CBConfig) (deleteOk : Nat → Bool)
    (card : SDCard) (queue : List String) : Bool × CleanupResult :=
  if cfg.enableCircularBuffer = false then (true, ⟨card, queue, [], []⟩)
  else
    let r := cleanupLoop cfg deleteOk card.files.length 0 card queue
    (decide (cfg.minFreeSpaceMB ≤ freeSpaceMB r.card), r)

/-! ## Upload pipeline (`VideoUploader.cpp`) -/

/-- The `VideoUploader` member state.  `uploadProgress` / `uploadFileSize`
are progress counters never read by any decision and are omitted.  The
function-local static `lastUploadReset` of `resetStuckUploadState` is
process-wide state and is carried as a field. -/
structure Uploader where
  uploadQueue : List String
  isUploading : Bool
  uploadPaused : Bool
  uploadInProgress : Bool
  currentUploadFile : String
  lastUploadAttempt : Nat
  lastUploadReset : Nat
deriving DecidableEq, Repr

/-- The freshly constructed `VideoUploader` state. -/
def Uploader.initial : Uploader :=
  { uploadQueue := [], isUploading := false, uploadPaused := false,
    uploadInProgress := false, currentUploadFile := "",
    lastUploadAttempt := 0, lastUploadReset := 0 }

/-- `VideoUploader::addToUploadQueue`: append unless already present. -/
def addToUploadQueue (queue : List String) (filename : String) : List String :=
  if filename ∈ queue then queue else queue ++ [filename]

/-- `VideoUploader::populateUploadQueue`: walk the root listing and
enqueue `"/" + name` for every `.avi` file. -/
def populateUploadQueue (files : List VFile) (queue : List String) : List String :=
  files.foldl (fun q f => if isAvi f = true then addToUploadQueue q (pathOf f) else q) queue

/-- `VideoUploader::shouldPauseUpload`: `unsigned long` arithmetic,
`timeUntilNextRecording = captureInterval - (now - lastCaptureTime)`,
pause when the wrapped difference is `<= 5000`. -/
def shouldPauseUpload (now lastCaptureTime captureInterval : Nat) : Bool :=
  decide (sub32 captureInterval (sub32 now lastCaptureTime) ≤ 5000)

/-- `VideoUploader::pauseUpload`: set `uploadPaused` only while a transfer
is active. -/
def pauseUpload (st : Uploader) : Uploader :=
  if st.isUploading = true ∧ st.uploadPaused = false then
    { st with uploadPaused := true }
  else st

/-- `VideoUploader::resumeUpload`. -/
def resumeUpload (st : Uploader) : Uploader :=
  if st.uploadPaused = true then { st with uploadPaused := false } else st

/-- `VideoUploader::forceResumeUploads`: clear the pause once outside the
active capture window. -/
def forceResumeUploads (now lastCaptureTime captureDuration captureInterval : Nat)
    (st : Uploader) : Uploader :=
  let isRecording :=
    sub32 now lastCaptureTime < captureDuration ∧ sub32 now lastCaptureTime < captureInterval
  if st.uploadPaused = true ∧ ¬ isRecording then resumeUpload st else st

/-- `VideoUploader::resetStuckUploadState`: at most once per 30 s, clear
the active-upload flags when `uploadInProgress` has been set for more than
5 minutes.  Note that `uploadPaused` is left untouched. -/
def resetStuckUploadState (now : Nat) (st : Uploader) : Uploader :=
  if 30000 < sub32 now st.lastUploadReset then
    let st1 := { st with lastUploadReset := now }
    if st1.uploadInProgress = true ∧ 300000 < sub32 now st1.lastUploadAttempt then
      { st1 with uploadInProgress := false, isUploading := false, currentUploadFile := "" }
    else st1
  else st

/-- Result of the retry loop inside `processUploadQueue`: final success,
final value of `retries`, number of calls to `uploadFileInChunks`, and the
list of backoff delays (`delay(2000 * retries)`) performed before the
successive attempts. -/
structure RetryResult where
  success : Bool
  retries : Nat
  attempts : Nat
  delays : List Nat
deriving DecidableEq, Repr

/-- The `while (!success && retries < maxRetries && !uploadPaused)` retry
loop of `processUploadQueue`.  `attemptOk k` is the outcome of the k-th
call to `uploadFileInChunks` and `wifiAfter k` the WiFi status checked
after a failed k-th attempt.  `uploadPaused` is invariant during the loop
(nothing inside the single-threaded call sets it), so the `!uploadPaused`
conjunct is the constant `true` once the resume prologue has run. -/
def retryLoop (maxRetries : Nat) (attemptOk wifiAfter : Nat → Bool) (retries : Nat) :
    RetryResult :=
  if h : retries < maxRetries then
    let pre := if 0 < retries then [2000 * retries] else []
    if attemptOk retries = true then ⟨true, retries, 1, pre⟩
    else
      if wifiAfter retries = true then
        let r := retryLoop maxRetries attemptOk wifiAfter (retries + 1)
        ⟨r.success, r.retries, r.attempts + 1, pre ++ r.delays⟩
      else ⟨false, retries + 1, 1, pre⟩
  else ⟨false, retries, 0, []⟩
termination_by maxRetries - retries

/-- Environment of one `processUploadQueue` call. -/
structure ProcEnv where
  wifi : Bool
  now : Nat
  attemptOk : Nat → Bool
  wifiAfter : Nat → Bool

/-- Observable trace of one `processUploadQueue` call. -/
structure ProcTrace where
  attemptedFile : Option String
  attempts : Nat
  delays : List Nat
  succeeded : Bool
deriving DecidableEq, Repr

/-- The empty trace of an early-returning `processUploadQueue` call. -/
def ProcTrace.none : ProcTrace := ⟨Option.none, 0, [], false⟩

/-- `VideoUploader::processUploadQueue`: guards, resume prologue,
throttle, then the retry loop on the queue head, which is afterwards
removed unconditionally (`uploadQueue.erase(uploadQueue.begin())`). -/
def processUploadQueue (maxRetries : Nat) (env : ProcEnv) (st : Uploader) :
    Uploader × ProcTrace :=
  if env.wifi = false ∨ st.uploadQueue = [] ∨ st.uploadInProgress = true then
    (st, ProcTrace.none)
  else
    let st1 := resumeUpload st
    if st1.uploadPaused = true then (st1, ProcTrace.none)
    else if sub32 env.now st1.lastUploadAttempt < 5000 then (st1, ProcTrace.none)
    else
      let filename := st1.uploadQueue.headI
      let r := retryLoop maxRetries env.attemptOk env.wifiAfter 0
      ({ st1 with
          uploadQueue := st1.uploadQueue.tail,
          lastUploadAttempt := env.now,
          currentUploadFile := "",
          isUploading := false,
          uploadInProgress := false },
        ⟨some filename, r.attempts, r.delays, r.success⟩)

/-! ### The chunked transfer attempt (`uploadFileInChunks`) -/

/-- Environment of one `uploadFileInChunks` call.  Checks of
`uploadPaused` and `stream->connected()` are indexed by a logical clock:
index 0 is the entry check, index `i + 1` the check guarding chunk `i`.
A dropped TCP connection never revives, so connectedness is modelled by a
lifetime: the check at index `t` sees a live connection iff `t < connLife`.
`response` is the text the response-reading loop accumulates when the
connection is still alive after the body was sent. -/
structure AttemptEnv where
  wifi : Bool
  paused : Nat → Bool
  fileOk : Bool
  fileSize : Nat
  connectOk : Bool
  connLife : Nat
  readOk : Nat → Bool
  writeOk : Nat → Bool
  response : String

/-- Result of the chunk-streaming loop: file bytes handed to the stream
and number of completed chunks. -/
structure ChunkOut where
  sent : Nat
  chunks : Nat
deriving DecidableEq, Repr

/-- The `while (remaining > 0 && !uploadPaused && stream->connected())`
body-streaming loop: 1024-byte buffer, read-then-write, breaking on a
short read or short write. -/
def chunkLoop (env : AttemptEnv) (remaining sent i : Nat) : ChunkOut :=
  if h : 0 < remaining ∧ env.paused (i + 1) = false ∧ i + 1 < env.connLife then
    if env.readOk i = true ∧ env.writeOk i = true then
      chunkLoop env (remaining - min remaining 1024) (sent + min remaining 1024) (i + 1)
    else ⟨sent, i⟩
  else ⟨sent, i⟩
termination_by remaining
decreasing_by
  have h1 : 0 < min remaining 1024 := by
    have := h.1; omega
  omega

/-- Arduino `String::toInt` digit accumulator (`atol` semantics). -/
def atolLoop : List Char → Nat → Nat
  | [], acc => acc
  | c :: cs, acc => if c.isDigit = true then atolLoop cs (acc * 10 + (c.toNat - 48)) else acc

/-- Arduino `String::toInt`: skip leading whitespace, optional sign, then
a digit run; 0 when no digits. -/
def ardToInt (s : String) : Int :=
  let cs := s.data.dropWhile (fun c => c = ' ' ∨ c = '\t' ∨ c = '\n' ∨ c = '\r')
  match cs with
  | '-' :: rest => - (atolLoop rest 0 : Int)
  | '+' :: rest => (atolLoop rest 0 : Int)
  | _ => (atolLoop cs 0 : Int)

/-- Arduino `String::substring(from, to)`. -/
def ardSubstring (s : String) (a b : Nat) : String :=
  (s.drop a).take (b - a)

/-- The response parsing of `uploadFileInChunks`:
`response.substring(9, 12).toInt()` guarded by the `HTTP/1.x ` prefix. -/
def parseHttpCode (resp : String) : Int :=
  if strStartsWith resp "HTTP/1.1 " = true ∨ strStartsWith resp "HTTP/1.0 " = true then
    ardToInt (ardSubstring resp 9 12)
  else 0

/-- Observable outcome of one `uploadFileInChunks` call. -/
structure AttemptResult where
  success : Bool
  triedOpenFile : Bool
  triedConnect : Bool
  bytesSent : Nat
  chunksDone : Nat
  deletedFile : Bool
deriving DecidableEq, Repr

/-- `VideoUploader::uploadFileInChunks`: entry guard (WiFi down or pause
already requested), file open, connect, header/prologue writes, the chunk
loop, epilogue, response read (empty when the connection is no longer
alive), status-code parse, and delete-on-success.  URL parsing affects
only which host is contacted and is not modelled. -/
def uploadFileInChunks (deleteAfterUpload : Bool) (env : AttemptEnv) : AttemptResult :=
  if env.wifi = false ∨ env.paused 0 = true then
    ⟨false, false, false, 0, 0, false⟩
  else if env.fileOk = false then
    ⟨false, true, false, 0, 0, false⟩
  else if env.connectOk = false then
    ⟨false, true, true, 0, 0, false⟩
  else
    let out := chunkLoop env env.fileSize 0 0
    let resp := if out.chunks + 1 < env.connLife then env.response else ""
    let code := parseHttpCode resp
    let ok := decide (code = 200 ∨ code = 201)
    ⟨ok, true, true, out.sent, out.chunks, ok && deleteAfterUpload⟩

/-! ## Basic lemmas about paths and the directory scan -/

theorem pathOf_data (f : VFile) : (pathOf f).data = '/' :: f.name.data := by
  simp [pathOf, String.data_append]

theorem pathOf_inj {f g : VFile} (h : pathOf f = pathOf g) : f.name = g.name := by
  have h2 := congrArg String.data h
  rw [pathOf_data, pathOf_data] at h2
  have h3 : f.name.data = g.name.data := by injection h2
  exact String.ext h3

theorem pathOf_ne_empty (f : VFile) : pathOf f ≠ "" := by
  intro h
  have h2 := congrArg String.data h
  rw [pathOf_data] at h2
  simp at h2

theorem isAvi_of_name_eq {f g : VFile} (h : f.name = g.name) : isAvi f = isAvi g := by
  simp [isAvi, h]

/-- Invariant of the `getOldestVideoFile` walk once a first candidate has
been found: the final result is either the accumulator (then every later
`.avi` file is no older) or a later `.avi` file that is strictly older
than the accumulator and minimal among the rest. -/
theorem getOldestGo_true (fs : List VFile) :
    ∀ (oldest : String) (oldT : Nat),
      (getOldestGo fs oldest oldT true = oldest ∧
        ∀ g ∈ fs, isAvi g = true → oldT ≤ g.mtime) ∨
      (∃ f ∈ fs, isAvi f = true ∧ getOldestGo fs oldest oldT true = pathOf f ∧
        f.mtime < oldT ∧ ∀ g ∈ fs, isAvi g = true → f.mtime ≤ g.mtime) := by
  induction fs with
  | nil => intro oldest oldT; left; simp [getOldestGo]
  | cons f fs ih =>
    intro oldest oldT
    by_cases hc : isAvi f = true ∧ f.mtime < oldT
    · rw [getOldestGo, if_pos ⟨hc.1, Or.inr hc.2⟩]
      rcases ih (pathOf f) f.mtime with ⟨heq, hmin⟩ | ⟨f1, hf1, havi1, heq1, hlt1, hmin1⟩
      · right
        refine ⟨f, List.mem_cons_self f fs, hc.1, heq, hc.2, ?_⟩
        intro g hg hgavi
        rcases List.mem_cons.mp hg with rfl | hg1
        · exact Nat.le_refl _
        · exact hmin g hg1 hgavi
      · right
        refine ⟨f1, List.mem_cons_of_mem f hf1, havi1, heq1, Nat.lt_trans hlt1 hc.2, ?_⟩
        intro g hg hgavi
        rcases List.mem_cons.mp hg with rfl | hg1
        · exact Nat.le_of_lt hlt1
        · exact hmin1 g hg1 hgavi
    · have hcond : ¬ (isAvi f = true ∧ (true = false ∨ f.mtime < oldT)) := by
        intro h2
        rcases h2.2 with h3 | h3
        · exact Bool.noConfusion h3
        · exact hc ⟨h2.1, h3⟩
      rw [getOldestGo, if_neg hcond]
      have hge : isAvi f = true → oldT ≤ f.mtime := by
        intro ha
        by_contra h4
        exact hc ⟨ha, Nat.lt_of_not_le h4⟩
      rcases ih oldest oldT with ⟨heq, hmin⟩ | ⟨f1, hf1, havi1, heq1, hlt1, hmin1⟩
      · left
        refine ⟨heq, ?_⟩
        intro g hg hgavi
        rcases List.mem_cons.mp hg with rfl | hg1
        · exact hge hgavi
        · exact hmin g hg1 hgavi
      · right
        refine ⟨f1, List.mem_cons_of_mem f hf1, havi1, heq1, hlt1, ?_⟩
        intro g hg hgavi
        rcases List.mem_cons.mp hg with rfl | hg1
        · exact Nat.le_trans (Nat.le_of_lt hlt1) (hge hgavi)
        · exact hmin1 g hg1 hgavi

/-- Helper for the entry phase of the walk (`foundFirst = false`). -/
theorem getOldestGo_false (fs : List VFile) :
    ∀ (oldest : String) (oldT : Nat),
      (getOldestGo fs oldest oldT false = oldest ∧ ∀ f ∈ fs, isAvi f = false) ∨
      (∃ f ∈ fs, isAvi f = true ∧ getOldestGo fs oldest oldT false = pathOf f ∧
        ∀ g ∈ fs, isAvi g = true → f.mtime ≤ g.mtime) := by
  induction fs with
  | nil => intro oldest oldT; left; simp [getOldestGo]
  | cons f fs ih =>
    intro oldest oldT
    by_cases ha : isAvi f = true
    · rw [getOldestGo, if_pos ⟨ha, Or.inl rfl⟩]
      rcases getOldestGo_true fs (pathOf f) f.mtime with
        ⟨heq, hmin⟩ | ⟨f1, hf1, havi1, heq1, hlt1, hmin1⟩
      · right
        refine ⟨f, List.mem_cons_self f fs, ha, heq, ?_⟩
        intro g hg hgavi
        rcases List.mem_cons.mp hg with rfl | hg1
        · exact Nat.le_refl _
        · exact hmin g hg1 hgavi
      · right
        refine ⟨f1, List.mem_cons_of_mem f hf1, havi1, heq1, ?_⟩
        intro g hg hgavi
        rcases List.mem_cons.mp hg with rfl | hg1
        · exact Nat.le_of_lt hlt1
        · exact hmin1 g hg1 hgavi
    · have hcond : ¬ (isAvi f = true ∧ (false = false ∨ f.mtime < oldT)) := fun h2 => ha h2.1
      rw [getOldestGo, if_neg hcond]
      rcases ih oldest oldT with ⟨heq, hnone⟩ | ⟨f1, hf1, havi1, heq1, hmin1⟩
      · left
        refine ⟨heq, ?_⟩
        intro g hg
        rcases List.mem_cons.mp hg with rfl | hg1
        · exact Bool.eq_false_iff.mpr ha
        · exact hnone g hg1
      · right
        refine ⟨f1, List.mem_cons_of_mem f hf1, havi1, heq1, ?_⟩
        intro g hg hgavi
        rcases List.mem_cons.mp hg with rfl | hg1
        · exact absurd hgavi ha
        · exact hmin1 g hg1 hgavi

/-- Specification of `getOldestVideoFile`: the scan returns `""` exactly
when no `.avi` file exists, and otherwise the path of an `.avi` file whose
last-write time is minimal among all `.avi` files. -/
theorem getOldest_spec (fs : List VFile) :
    (getOldestVideoFile fs = "" ∧ ∀ f ∈ fs, isAvi f = false) ∨
    (∃ f ∈ fs, isAvi f = true ∧ getOldestVideoFile fs = pathOf f ∧
      ∀ g ∈ fs, isAvi g = true → f.mtime ≤ g.mtime) := by
  exact getOldestGo_false fs "" 0

/-! ## Lemmas about deletion and counting -/

theorem removeByPath_some {p : String} :
    ∀ {fs : List VFile} {g : VFile} {fs1 : List VFile},
      removeByPath fs p = some (g, fs1) →
      ∃ pre post, fs = pre ++ g :: post ∧ fs1 = pre ++ post ∧ pathOf g = p := by
  intro fs
  induction fs with
  | nil => intro g fs1 h; simp [removeByPath] at h
  | cons f fs ih =>
    intro g fs1 h
    rw [removeByPath] at h
    by_cases hp : pathOf f = p
    · rw [if_pos hp] at h
      obtain ⟨rfl, rfl⟩ : f = g ∧ fs = fs1 := by
        constructor <;> (cases h; rfl)
      exact ⟨[], fs, rfl, rfl, hp⟩
    · rw [if_neg hp] at h
      cases hrec : removeByPath fs p with
      | none => rw [hrec] at h; simp at h
      | some r =>
        rw [hrec] at h
        simp only [Option.map_some'] at h
        obtain ⟨rfl, rfl⟩ : r.1 = g ∧ f :: r.2 = fs1 := by
          constructor <;> (cases h; rfl)
        have hrec2 : removeByPath fs p = some (r.1, r.2) := by rw [hrec]
        obtain ⟨pre, post, h1, h2, h3⟩ := ih hrec2
        exact ⟨f :: pre, post, by rw [h1]; rfl, by rw [h2]; rfl, h3⟩

theorem removeByPath_isSome {p : String} :
    ∀ {fs : List VFile}, (∃ f ∈ fs, pathOf f = p) →
      ∃ g fs1, removeByPath fs p = some (g, fs1) := by
  intro fs
  induction fs with
  | nil => intro h; simp at h
  | cons f fs ih =>
    intro h
    rw [removeByPath]
    by_cases hp : pathOf f = p
    · exact ⟨f, fs, by rw [if_pos hp]⟩
    · obtain ⟨f1, hf1, hfp⟩ := h
      rcases List.mem_cons.mp hf1 with rfl | hf2
      · exact absurd hfp hp
      · obtain ⟨g, fs1, hg⟩ := ih ⟨f1, hf2, hfp⟩
        exact ⟨g, f :: fs1, by rw [if_neg hp, hg]; rfl⟩

theorem countVideoFiles_append (l1 l2 : List VFile) :
    countVideoFiles (l1 ++ l2) = countVideoFiles l1 + countVideoFiles l2 := by
  simp [countVideoFiles, List.filter_append]

theorem countVideoFiles_cons_avi {f : VFile} (hf : isAvi f = true) (l : List VFile) :
    countVideoFiles (f :: l) = countVideoFiles l + 1 := by
  simp [countVideoFiles, List.filter_cons, hf]

theorem countVideoFiles_le_length (fs : List VFile) :
    countVideoFiles fs ≤ fs.length :=
  List.length_filter_le _ _

/-- Any victim path produced by `getOldestVideoFile` on a listing that
still has a video names an `.avi` file, so `SD.remove` succeeds and
removes an `.avi` file of minimal last-write time (given unique names). -/
theorem removeByPath_length {p : String} {fs : List VFile} {g : VFile} {fs1 : List VFile}
    (h : removeByPath fs p = some (g, fs1)) : fs1.length + 1 = fs.length := by
  obtain ⟨pre, post, h1, h2, _⟩ := removeByPath_some h
  subst h1; subst h2
  simp [List.length_append]
  omega

theorem removeByPath_count {p : String} {fs : List VFile} {g : VFile} {fs1 : List VFile}
    (h : removeByPath fs p = some (g, fs1)) (hg : isAvi g = true) :
    countVideoFiles fs1 + 1 = countVideoFiles fs := by
  obtain ⟨pre, post, h1, h2, _⟩ := removeByPath_some h
  subst h1; subst h2
  rw [countVideoFiles_append, countVideoFiles_append, countVideoFiles_cons_avi hg]
  omega

/-- When the listing still holds an `.avi` file, the victim chosen by the
loop body exists, is an `.avi` file, and the delete succeeds, removing a
file that carries the victim's name. -/
theorem evict_step_shape (card : SDCard)
    (hcount : 1 ≤ countVideoFiles card.files) :
    getOldestVideoFile card.files ≠ "" ∧
    ∃ f ∈ card.files, isAvi f = true ∧
      getOldestVideoFile card.files = pathOf f ∧
      (∀ g ∈ card.files, isAvi g = true → f.mtime ≤ g.mtime) ∧
      ∃ g fs1, removeByPath card.files (getOldestVideoFile card.files) = some (g, fs1) ∧
        g.name = f.name ∧ isAvi g = true := by
  rcases getOldest_spec card.files with ⟨_, hnone⟩ | ⟨f, hf, hfavi, hfpath, hfmin⟩
  · exfalso
    have : countVideoFiles card.files = 0 := by
      simp only [countVideoFiles]
      rw [List.filter_eq_nil_iff.mpr]
      · rfl
      · intro a ha
        simp [hnone a ha]
    omega
  · refine ⟨by rw [hfpath]; exact (pathOf_ne_empty f).symm ∘ Eq.symm, f, hf, hfavi, hfpath, hfmin, ?_⟩
    obtain ⟨g, fs1, hrem⟩ := removeByPath_isSome ⟨f, hf, hfpath.symm⟩
    obtain ⟨_, _, _, _, hgp⟩ := removeByPath_some hrem
    have hname : g.name = f.name := pathOf_inj (hgp.trans hfpath)
    exact ⟨g, fs1, hrem, hname, by rw [isAvi_of_name_eq hname]; exact hfavi⟩

/-! ### Branch equations of the eviction loop -/

theorem cleanupLoop_stop (cfg : CBConfig) (deleteOk : Nat → Bool)
    (n k : Nat) (card : SDCard) (queue : List String)
    (h1 : ¬ (needCleanup cfg card ∧ 1 < countVideoFiles card.files)) :
    cleanupLoop cfg deleteOk (n + 1) k card queue = ⟨card, queue, [], []⟩ := by
  rw [cleanupLoop, if_neg h1]

theorem cleanupLoop_empty_victim (cfg : CBConfig) (deleteOk : Nat → Bool)
    (n k : Nat) (card : SDCard) (queue : List String)
    (h1 : needCleanup cfg card ∧ 1 < countVideoFiles card.files)
    (h2 : getOldestVideoFile card.files = "") :
    cleanupLoop cfg deleteOk (n + 1) k card queue = ⟨card, queue, [], []⟩ := by
  rw [cleanupLoop, if_pos h1, if_pos h2]

theorem cleanupLoop_remove_none (cfg : CBConfig) (deleteOk : Nat → Bool)
    (n k : Nat) (card : SDCard) (queue : List String)
    (h1 : needCleanup cfg card ∧ 1 < countVideoFiles card.files)
    (h2 : getOldestVideoFile card.files ≠ "")
    (hrem : removeByPath card.files (getOldestVideoFile card.files) = none) :
    cleanupLoop cfg deleteOk (n + 1) k card queue =
      ⟨card, eraseFirst queue (getOldestVideoFile card.files), [],
        [getOldestVideoFile card.files]⟩ := by
  rw [cleanupLoop, if_pos h1, if_neg h2, hrem]

theorem cleanupLoop_delete_ok (cfg : CBConfig) (deleteOk : Nat → Bool)
    (n k : Nat) (card : SDCard) (queue : List String) (g : VFile) (fs1 : List VFile)
    (h1 : needCleanup cfg card ∧ 1 < countVideoFiles card.files)
    (h2 : getOldestVideoFile card.files ≠ "")
    (hrem : removeByPath card.files (getOldestVideoFile card.files) = some (g, fs1))
    (hd : deleteOk k = true) :
    cleanupLoop cfg deleteOk (n + 1) k card queue =
      ⟨(cleanupLoop cfg deleteOk n (k + 1) { card with files := fs1 }
          (eraseFirst queue (getOldestVideoFile card.files))).card,
        (cleanupLoop cfg deleteOk n (k + 1) { card with files := fs1 }
          (eraseFirst queue (getOldestVideoFile card.files))).queue,
        ⟨card.files, getOldestVideoFile card.files, g⟩ ::
          (cleanupLoop cfg deleteOk n (k + 1) { card with files := fs1 }
            (eraseFirst queue (getOldestVideoFile card.files))).steps,
        getOldestVideoFile card.files ::
          (cleanupLoop cfg deleteOk n (k + 1) { card with files := fs1 }
            (eraseFirst queue (getOldestVideoFile card.files))).erased⟩ := by
  rw [cleanupLoop, if_pos h1, if_neg h2, hrem]
  simp [hd]

theorem cleanupLoop_delete_fail (cfg : CBConfig) (deleteOk : Nat → Bool)
    (n k : Nat) (card : SDCard) (queue : List String) (g : VFile) (fs1 : List VFile)
    (h1 : needCleanup cfg card ∧ 1 < countVideoFiles card.files)
    (h2 : getOldestVideoFile card.files ≠ "")
    (hrem : removeByPath card.files (getOldestVideoFile card.files) = some (g, fs1))
    (hd : deleteOk k = false) :
    cleanupLoop cfg deleteOk (n + 1) k card queue =
      ⟨card, eraseFirst queue (getOldestVideoFile card.files), [],
        [getOldestVideoFile card.files]⟩ := by
  rw [cleanupLoop, if_pos h1, if_neg h2, hrem]
  simp [hd]

/-- C2 core: the eviction loop never drops the video count below one. -/
theorem cleanupLoop_count_floor (cfg : CBConfig) (deleteOk : Nat → Bool) :
    ∀ (fuel k : Nat) (card : SDCard) (queue : List String),
      1 ≤ countVideoFiles card.files →
      1 ≤ countVideoFiles (cleanupLoop cfg deleteOk fuel k card queue).card.files := by
  intro fuel
  induction fuel with
  | zero => intro k card queue h; simpa [cleanupLoop] using h
  | succ n ih =>
    intro k card queue h
    by_cases h1 : needCleanup cfg card ∧ 1 < countVideoFiles card.files
    · obtain ⟨hne, f, hf, hfavi, hfpath, hfmin, g, fs1, hrem, hname, hgavi⟩ :=
        evict_step_shape card h
      by_cases hd : deleteOk k = true
      · rw [cleanupLoop_delete_ok cfg deleteOk n k card queue g fs1 h1 hne hrem hd]
        have hcnt : countVideoFiles fs1 + 1 = countVideoFiles card.files :=
          removeByPath_count hrem hgavi
        have h2 := h1.2
        exact ih (k + 1) { card with files := fs1 }
          (eraseFirst queue (getOldestVideoFile card.files))
          (by show 1 ≤ countVideoFiles fs1; omega)
      · rw [cleanupLoop_delete_fail cfg deleteOk n k card queue g fs1 h1 hne hrem
          (Bool.eq_false_iff.mpr hd)]
        exact h
    · rw [cleanupLoop_stop cfg deleteOk n k card queue h1]
      exact h

/-- C1 core: with unique file names (as in a real directory), every
recorded eviction step removes an `.avi` file of minimal last-write time
among the files present at that step. -/
theorem cleanupLoop_steps_sound (cfg : CBConfig) (deleteOk : Nat → Bool) :
    ∀ (fuel k : Nat) (card : SDCard) (queue : List String),
      (card.files.map (fun f => f.name)).Nodup →
      ∀ step ∈ (cleanupLoop cfg deleteOk fuel k card queue).steps,
        step.victim ∈ step.filesBefore ∧ isAvi step.victim = true ∧
        ∀ g ∈ step.filesBefore, isAvi g = true → step.victim.mtime ≤ g.mtime := by
  intro fuel
  induction fuel with
  | zero => intro k card queue hnd step hstep; simp [cleanupLoop] at hstep
  | succ n ih =>
    intro k card queue hnd step hstep
    by_cases h1 : needCleanup cfg card ∧ 1 < countVideoFiles card.files
    · have h1b := h1.2
      obtain ⟨hne, f, hf, hfavi, hfpath, hfmin, g, fs1, hrem, hname, hgavi⟩ :=
        evict_step_shape card (by omega)
      by_cases hd : deleteOk k = true
      · rw [cleanupLoop_delete_ok cfg deleteOk n k card queue g fs1 h1 hne hrem hd] at hstep
        have hgmem : g ∈ card.files := by
          obtain ⟨pre, post, hfs, _, _⟩ := removeByPath_some hrem
          rw [hfs]
          exact List.mem_append_right pre (List.mem_cons_self g post)
        have hgf : g = f :=
          List.inj_on_of_nodup_map hnd hgmem hf hname
        have hstep2 : step = ⟨card.files, getOldestVideoFile card.files, g⟩ ∨
            step ∈ (cleanupLoop cfg deleteOk n (k + 1) { card with files := fs1 }
              (eraseFirst queue (getOldestVideoFile card.files))).steps := by
          simpa using hstep
        rcases hstep2 with rfl | htail
        · refine ⟨hgmem, hgavi, ?_⟩
          intro g1 hg1 hg1avi
          simpa [hgf] using hfmin g1 hg1 hg1avi
        · refine ih (k + 1) { card with files := fs1 }
            (eraseFirst queue (getOldestVideoFile card.files)) ?_ step htail
          obtain ⟨pre, post, hfs, hfs1, _⟩ := removeByPath_some hrem
          have hsub : List.Sublist ((pre ++ post).map (fun f => f.name))
              (card.files.map (fun f => f.name)) := by
            rw [hfs]
            exact ((List.sublist_cons_self g post).append_left pre).map _
          rw [show ({ card with files := fs1 } : SDCard).files = fs1 from rfl, hfs1]
          exact hnd.sublist hsub
      · rw [cleanupLoop_delete_fail cfg deleteOk n k card queue g fs1 h1 hne hrem
          (Bool.eq_false_iff.mpr hd)] at hstep
        simp at hstep
    · rw [cleanupLoop_stop cfg deleteOk n k card queue h1] at hstep
      simp at hstep

/-- C5 core, part 1: the final queue is the initial one with the erased
victim paths removed in order — every selected victim's entry is erased
before its delete is attempted, so the trace `erased` drives the queue. -/
theorem cleanupLoop_queue_eq (cfg : CBConfig) (deleteOk : Nat → Bool) :
    ∀ (fuel k : Nat) (card : SDCard) (queue : List String),
      (cleanupLoop cfg deleteOk fuel k card queue).queue =
        List.foldl eraseFirst queue (cleanupLoop cfg deleteOk fuel k card queue).erased := by
  intro fuel
  induction fuel with
  | zero => intro k card queue; simp [cleanupLoop]
  | succ n ih =>
    intro k card queue
    by_cases h1 : needCleanup cfg card ∧ 1 < countVideoFiles card.files
    · by_cases h2 : getOldestVideoFile card.files = ""
      · rw [cleanupLoop_empty_victim cfg deleteOk n k card queue h1 h2]
        rfl
      · cases hrem : removeByPath card.files (getOldestVideoFile card.files) with
        | none =>
          rw [cleanupLoop_remove_none cfg deleteOk n k card queue h1 h2 hrem]
          rfl
        | some pr =>
          obtain ⟨g, fs1⟩ := pr
          by_cases hd : deleteOk k = true
          · rw [cleanupLoop_delete_ok cfg deleteOk n k card queue g fs1 h1 h2 hrem hd]
            exact ih (k + 1) { card with files := fs1 }
              (eraseFirst queue (getOldestVideoFile card.files))
          · rw [cleanupLoop_delete_fail cfg deleteOk n k card queue g fs1 h1 h2 hrem
              (Bool.eq_false_iff.mpr hd)]
            rfl
    · rw [cleanupLoop_stop cfg deleteOk n k card queue h1]
      rfl

/-- C5 core, part 2: the erased paths are exactly the successfully
deleted victims' paths followed by at most one further path — the victim
whose `SD.remove` failed after its queue entry was already erased. -/
theorem cleanupLoop_erased_decomp (cfg : CBConfig) (deleteOk : Nat → Bool) :
    ∀ (fuel k : Nat) (card : SDCard) (queue : List String),
      ∃ tail,
        (cleanupLoop cfg deleteOk fuel k card queue).erased =
          ((cleanupLoop cfg deleteOk fuel k card queue).steps.map
            (fun s => s.victimPath)) ++ tail ∧
        tail.length ≤ 1 := by
  intro fuel
  induction fuel with
  | zero => intro k card queue; exact ⟨[], by simp [cleanupLoop], by simp⟩
  | succ n ih =>
    intro k card queue
    by_cases h1 : needCleanup cfg card ∧ 1 < countVideoFiles card.files
    · by_cases h2 : getOldestVideoFile card.files = ""
      · rw [cleanupLoop_empty_victim cfg deleteOk n k card queue h1 h2]
        exact ⟨[], by simp, by simp⟩
      · cases hrem : removeByPath card.files (getOldestVideoFile card.files) with
        | none =>
          rw [cleanupLoop_remove_none cfg deleteOk n k card queue h1 h2 hrem]
          exact ⟨[getOldestVideoFile card.files], by simp, by simp⟩
        | some pr =>
          obtain ⟨g, fs1⟩ := pr
          by_cases hd : deleteOk k = true
          · rw [cleanupLoop_delete_ok cfg deleteOk n k card queue g fs1 h1 h2 hrem hd]
            obtain ⟨tail, htl, hlen⟩ := ih (k + 1) { card with files := fs1 }
              (eraseFirst queue (getOldestVideoFile card.files))
            refine ⟨tail, ?_, hlen⟩
            simpa using htl
          · rw [cleanupLoop_delete_fail cfg deleteOk n k card queue g fs1 h1 h2 hrem
              (Bool.eq_false_iff.mpr hd)]
            exact ⟨[getOldestVideoFile card.files], by simp, by simp⟩
    · rw [cleanupLoop_stop cfg deleteOk n k card queue h1]
      exact ⟨[], by simp, by simp⟩

/-- The fuel `card.files.length` used by `checkAndManageStorage` is
irrelevant: any fuel at least the number of listed files produces the
same result, so the fuel never cuts the `while` loop short. -/
theorem cleanupLoop_fuel_irrel (cfg : CBConfig) (deleteOk : Nat → Bool) :
    ∀ (n m k : Nat) (card : SDCard) (queue : List String),
      card.files.length ≤ n → card.files.length ≤ m →
      cleanupLoop cfg deleteOk n k card queue = cleanupLoop cfg deleteOk m k card queue := by
  intro n
  induction n with
  | zero =>
    intro m k card queue hn hm
    have hfiles : card.files = [] := List.length_eq_zero.mp (by omega)
    cases m with
    | zero => rfl
    | succ m =>
      rw [cleanupLoop, cleanupLoop, if_neg]
      intro h1
      rw [hfiles] at h1
      simp [countVideoFiles] at h1
  | succ n ih =>
    intro m k card queue hn hm
    cases m with
    | zero =>
      have hfiles : card.files = [] := List.length_eq_zero.mp (by omega)
      rw [cleanupLoop, cleanupLoop, if_neg]
      intro h1
      rw [hfiles] at h1
      simp [countVideoFiles] at h1
    | succ m =>
      by_cases h1 : needCleanup cfg card ∧ 1 < countVideoFiles card.files
      · by_cases h2 : getOldestVideoFile card.files = ""
        · rw [cleanupLoop_empty_victim cfg deleteOk n k card queue h1 h2,
            cleanupLoop_empty_victim cfg deleteOk m k card queue h1 h2]
        · cases hrem : removeByPath card.files (getOldestVideoFile card.files) with
          | none =>
            rw [cleanupLoop_remove_none cfg deleteOk n k card queue h1 h2 hrem,
              cleanupLoop_remove_none cfg deleteOk m k card queue h1 h2 hrem]
          | some pr =>
            obtain ⟨g, fs1⟩ := pr
            by_cases hd : deleteOk k = true
            · have hlen : fs1.length + 1 = card.files.length := removeByPath_length hrem
              rw [cleanupLoop_delete_ok cfg deleteOk n k card queue g fs1 h1 h2 hrem hd,
                cleanupLoop_delete_ok cfg deleteOk m k card queue g fs1 h1 h2 hrem hd,
                ih m (k + 1) { card with files := fs1 }
                  (eraseFirst queue (getOldestVideoFile card.files))
                  (by show fs1.length ≤ n; omega) (by show fs1.length ≤ m; omega)]
            · rw [cleanupLoop_delete_fail cfg deleteOk n k card queue g fs1 h1 h2 hrem
                (Bool.eq_false_iff.mpr hd),
                cleanupLoop_delete_fail cfg deleteOk m k card queue g fs1 h1 h2 hrem
                (Bool.eq_false_iff.mpr hd)]
      · rw [cleanupLoop_stop cfg deleteOk n k card queue h1,
          cleanupLoop_stop cfg deleteOk m k card queue h1]

/-- The queue-reconciliation erase is `List.erase`. -/
theorem eraseFirst_eq_erase (q : List String) (p : String) : eraseFirst q p = q.erase p := by
  induction q with
  | nil => simp [eraseFirst]
  | cons x xs ih =>
    rw [eraseFirst, List.erase_cons, ih]
    by_cases h : x = p
    · simp [h]
    · simp [h]

/-- Erasing a list of paths in order is `List.diff`. -/
theorem foldl_eraseFirst_eq_diff (ps : List String) :
    ∀ (q : List String), List.foldl eraseFirst q ps = q.diff ps := by
  induction ps with
  | nil => intro q; simp
  | cons p ps ih =>
    intro q
    rw [List.foldl_cons, ih, eraseFirst_eq_erase, List.diff_cons]

/-! ## Eviction-manager claims -/

/-- Example configuration: 3 MB reserved for video, 1 MB minimum free,
circular buffer enabled. -/
def exCfg : CBConfig := ⟨3, 1, true⟩

/-- Example configuration with the circular buffer disabled. -/
def exCfgOff : CBConfig := ⟨3, 1, false⟩

/-- Example card: 100 MB total, three videos of 2 MB / 1 MB / 1 MB with
the 1 MB `a.avi` the oldest (the spec §8 eviction scenario). -/
def exCard : SDCard :=
  ⟨104857600, 0,
    [⟨"b.avi", 2097152, 2⟩, ⟨"a.avi", 1048576, 1⟩, ⟨"c.avi", 1048576, 3⟩]⟩

/-- C1: every eviction step of `checkAndManageStorage` deletes the
recognized (`.avi`) segment with the smallest last-modified timestamp
among the segments present at that step (file names in a directory are
unique); hence a newer segment is never deleted while an older one
remains. -/
theorem spec_c1 (cfg : CBConfig) (deleteOk : Nat → Bool) (card : SDCard)
    (queue : List String) (hnames : (card.files.map (fun f => f.name)).Nodup) :
    ∀ step ∈ (checkAndManageStorage cfg deleteOk card queue).2.steps,
      step.victim ∈ step.filesBefore ∧ isAvi step.victim = true ∧
      ∀ g ∈ step.filesBefore, isAvi g = true → step.victim.mtime ≤ g.mtime := by
  intro step hstep
  unfold checkAndManageStorage at hstep
  by_cases he : cfg.enableCircularBuffer = false
  · rw [if_pos he] at hstep
    simp at hstep
  · rw [if_neg he] at hstep
    exact cleanupLoop_steps_sound cfg deleteOk card.files.length 0 card queue hnames step
      (by simpa using hstep)

/-- Witness for C1 at the spec §8 scenario: the sole eviction step deletes
`a.avi`, the oldest video. -/
theorem spec_c1_witness :
    (⟨"a.avi", 1048576, 1⟩ : VFile) ∈ exCard.files ∧
    isAvi (⟨"a.avi", 1048576, 1⟩ : VFile) = true ∧
    (∀ g ∈ exCard.files, isAvi g = true →
      (⟨"a.avi", 1048576, 1⟩ : VFile).mtime ≤ g.mtime) :=
  spec_c1 exCfg (fun _ => true) exCard ["/a.avi", "/b.avi"] (by decide)
    ⟨exCard.files, "/a.avi", ⟨"a.avi", 1048576, 1⟩⟩ (by decide)

/-- C2: `checkAndManageStorage` never reduces the count of recognized
segments to zero: whenever at least one `.avi` file exists before the
call, at least one remains after it. -/
theorem spec_c2 (cfg : CBConfig) (deleteOk : Nat → Bool) (card : SDCard)
    (queue : List String) (h : 1 ≤ countVideoFiles card.files) :
    1 ≤ countVideoFiles (checkAndManageStorage cfg deleteOk card queue).2.card.files := by
  unfold checkAndManageStorage
  by_cases he : cfg.enableCircularBuffer = false
  · rw [if_pos he]
    exact h
  · rw [if_neg he]
    exact cleanupLoop_count_floor cfg deleteOk card.files.length 0 card queue h

/-- Witness for C2: the §8 scenario starts with three videos, and at
least one (in fact two) survives the call. -/
theorem spec_c2_witness :
    1 ≤ countVideoFiles exCard.files ∧
    1 ≤ countVideoFiles
      (checkAndManageStorage exCfg (fun _ => true) exCard []).2.card.files :=
  ⟨by decide, spec_c2 exCfg (fun _ => true) exCard [] (by decide)⟩

/-- C4: with the circular buffer disabled, `checkAndManageStorage`
returns `true` immediately, measuring nothing and deleting nothing;
otherwise its result is `true` iff the free space computed at the end of
the call is at least the configured minimum — a reserved-capacity
(`videoStorageMB > maxStorageMB`) overflow alone never fails the call. -/
theorem spec_c4 (cfg : CBConfig) (deleteOk : Nat → Bool) (card : SDCard)
    (queue : List String) :
    (cfg.enableCircularBuffer = false →
      checkAndManageStorage cfg deleteOk card queue = (true, ⟨card, queue, [], []⟩)) ∧
    (cfg.enableCircularBuffer = true →
      ((checkAndManageStorage cfg deleteOk card queue).1 = true ↔
        cfg.minFreeSpaceMB ≤
          freeSpaceMB (checkAndManageStorage cfg deleteOk card queue).2.card)) := by
  constructor
  · intro he
    unfold checkAndManageStorage
    rw [if_pos he]
  · intro he
    unfold checkAndManageStorage
    rw [if_neg (by simp [he])]
    exact decide_eq_true_iff

/-- Witness for C4, exercising both the disabled branch and the enabled
branch (where the reserved-capacity overflow triggered eviction and the
call still returns `true` because free space is ample). -/
theorem spec_c4_witness :
    checkAndManageStorage exCfgOff (fun _ => true) exCard [] =
      (true, ⟨exCard, [], [], []⟩) ∧
    ((checkAndManageStorage exCfg (fun _ => true) exCard []).1 = true ↔
      exCfg.minFreeSpaceMB ≤
        freeSpaceMB (checkAndManageStorage exCfg (fun _ => true) exCard []).2.card) :=
  ⟨(spec_c4 exCfgOff (fun _ => true) exCard []).1 (by decide),
    (spec_c4 exCfg (fun _ => true) exCard []).2 (by decide)⟩

/-- Card used by the C5 counterexample: a full card (0 bytes free) with
two zero-length videos, so eviction fires on the free-space threshold. -/
def dupCard : SDCard := ⟨0, 0, [⟨"a.avi", 0, 1⟩, ⟨"b.avi", 0, 2⟩]⟩

/-- C5 as stated is false twice over.  (i) With a supplied queue that
contains the victim's path twice, only the first occurrence is erased,
so the deleted victim's path is still present afterwards.  (ii) The
queue entry is erased before `SD.remove` runs, so when the delete of the
existing `a.avi` fails, no segment is deleted at all (`steps = []`, card
unchanged) and yet the entry `/a.avi` — whose path was not deleted as a
victim — has been removed from the queue. -/
theorem spec_c5_cex :
    ("/a.avi" ∈ ((checkAndManageStorage exCfg (fun _ => true) dupCard
        ["/a.avi", "/a.avi"]).2.steps.map (fun s => s.victimPath)) ∧
      "/a.avi" ∈ (checkAndManageStorage exCfg (fun _ => true) dupCard
        ["/a.avi", "/a.avi"]).2.queue) ∧
    ((checkAndManageStorage exCfg (fun _ => false) dupCard
        ["/a.avi", "/b.avi"]).2.steps = [] ∧
      (checkAndManageStorage exCfg (fun _ => false) dupCard
        ["/a.avi", "/b.avi"]).2.card = dupCard ∧
      (checkAndManageStorage exCfg (fun _ => false) dupCard
        ["/a.avi", "/b.avi"]).2.queue = ["/b.avi"]) := by
  decide

/-- C5 (amended): provided the supplied queue is duplicate-free by path —
as the pipeline maintains — the queue after the call is the original with
exactly the erased victim paths' entries removed, in order; every
successfully deleted victim's path is among the erased paths and hence
absent from the queue; and the erased paths are the deleted victims'
paths followed by at most one more — the entry of a victim whose
`SD.remove` failed after its queue entry was already erased.  (With
duplicate entries, only the first occurrence of a victim's path is
erased.) -/
theorem spec_c5 (cfg : CBConfig) (deleteOk : Nat → Bool) (card : SDCard)
    (queue : List String) (hq : queue.Nodup) :
    (checkAndManageStorage cfg deleteOk card queue).2.queue =
      queue.filter (fun s =>
        s ∉ (checkAndManageStorage cfg deleteOk card queue).2.erased) ∧
    (∀ p ∈ (checkAndManageStorage cfg deleteOk card queue).2.steps.map
        (fun t => t.victimPath),
      p ∈ (checkAndManageStorage cfg deleteOk card queue).2.erased ∧
      p ∉ (checkAndManageStorage cfg deleteOk card queue).2.queue) ∧
    (∃ tail,
      (checkAndManageStorage cfg deleteOk card queue).2.erased =
        ((checkAndManageStorage cfg deleteOk card queue).2.steps.map
          (fun t => t.victimPath)) ++ tail ∧
      tail.length ≤ 1) := by
  have hmain : (checkAndManageStorage cfg deleteOk card queue).2.queue =
      queue.diff (checkAndManageStorage cfg deleteOk card queue).2.erased := by
    unfold checkAndManageStorage
    by_cases he : cfg.enableCircularBuffer = false
    · rw [if_pos he]
      simp
    · rw [if_neg he]
      have h1 := cleanupLoop_queue_eq cfg deleteOk card.files.length 0 card queue
      have h2 := foldl_eraseFirst_eq_diff
        ((cleanupLoop cfg deleteOk card.files.length 0 card queue).erased) queue
      simpa [h2] using h1
  have hdecomp : ∃ tail,
      (checkAndManageStorage cfg deleteOk card queue).2.erased =
        ((checkAndManageStorage cfg deleteOk card queue).2.steps.map
          (fun t => t.victimPath)) ++ tail ∧
      tail.length ≤ 1 := by
    unfold checkAndManageStorage
    by_cases he : cfg.enableCircularBuffer = false
    · rw [if_pos he]
      exact ⟨[], by simp, by simp⟩
    · rw [if_neg he]
      simpa using cleanupLoop_erased_decomp cfg deleteOk card.files.length 0 card queue
  refine ⟨by rw [hmain, hq.diff_eq_filter], ?_, hdecomp⟩
  intro p hp
  obtain ⟨tail, htl, _⟩ := hdecomp
  have hper : p ∈ (checkAndManageStorage cfg deleteOk card queue).2.erased := by
    rw [htl]
    exact List.mem_append_left tail hp
  refine ⟨hper, ?_⟩
  rw [hmain]
  intro hmem
  exact ((hq.mem_diff_iff).mp hmem).2 hper

/-- Witness for C5 on the §8 scenario with a duplicate-free queue holding
both the victim and a survivor and every delete succeeding: `/a.avi` is
evicted and leaves the queue, `/b.avi` stays, and the erased trace is
exactly the deleted victims' paths. -/
theorem spec_c5_witness :
    ((checkAndManageStorage exCfg (fun _ => true) exCard ["/a.avi", "/b.avi"]).2.queue =
      ["/a.avi", "/b.avi"].filter (fun s =>
        s ∉ (checkAndManageStorage exCfg (fun _ => true) exCard
          ["/a.avi", "/b.avi"]).2.erased)) ∧
    (∀ p ∈ (checkAndManageStorage exCfg (fun _ => true) exCard
        ["/a.avi", "/b.avi"]).2.steps.map (fun t => t.victimPath),
      p ∈ (checkAndManageStorage exCfg (fun _ => true) exCard
        ["/a.avi", "/b.avi"]).2.erased ∧
      p ∉ (checkAndManageStorage exCfg (fun _ => true) exCard
        ["/a.avi", "/b.avi"]).2.queue) ∧
    (∃ tail,
      (checkAndManageStorage exCfg (fun _ => true) exCard
        ["/a.avi", "/b.avi"]).2.erased =
        ((checkAndManageStorage exCfg (fun _ => true) exCard
          ["/a.avi", "/b.avi"]).2.steps.map (fun t => t.victimPath)) ++ tail ∧
      tail.length ≤ 1) :=
  spec_c5 exCfg (fun _ => true) exCard ["/a.avi", "/b.avi"] (by decide)

/-- The session-state invariant of the upload pipeline:
`currentUploadFile` is nonempty iff a transfer is active, and the pause
flag is set only while a transfer is active. -/
def SessionInv (st : Uploader) : Prop :=
  (st.currentUploadFile ≠ "" ↔ st.isUploading = true) ∧
  (st.uploadPaused = true → st.isUploading = true)

instance (st : Uploader) : Decidable (SessionInv st) := by
  unfold SessionInv; infer_instance

/-! ## Uploader state wrappers for the queue methods -/

/-- `addToUploadQueue` as an operation on the uploader state. -/
def Uploader.addToQueue (st : Uploader) (p : String) : Uploader :=
  { st with uploadQueue := addToUploadQueue st.uploadQueue p }

/-- `populateUploadQueue` as an operation on the uploader state. -/
def Uploader.populateQueue (st : Uploader) (files : List VFile) : Uploader :=
  { st with uploadQueue := populateUploadQueue files st.uploadQueue }

/-- `VideoUploader::clearUploadQueue`. -/
def Uploader.clearQueue (st : Uploader) : Uploader :=
  { st with uploadQueue := [] }

/-! ## Helper lemmas for the uploader -/

theorem resumeUpload_uploadPaused (st : Uploader) :
    (resumeUpload st).uploadPaused = false := by
  unfold resumeUpload
  split_ifs with h
  · rfl
  · simpa using h

theorem resumeUpload_uploadQueue (st : Uploader) :
    (resumeUpload st).uploadQueue = st.uploadQueue := by
  unfold resumeUpload
  split_ifs <;> rfl

theorem resumeUpload_lastUploadAttempt (st : Uploader) :
    (resumeUpload st).lastUploadAttempt = st.lastUploadAttempt := by
  unfold resumeUpload
  split_ifs <;> rfl

theorem resumeUpload_currentUploadFile (st : Uploader) :
    (resumeUpload st).currentUploadFile = st.currentUploadFile := by
  unfold resumeUpload
  split_ifs <;> rfl

theorem resumeUpload_isUploading (st : Uploader) :
    (resumeUpload st).isUploading = st.isUploading := by
  unfold resumeUpload
  split_ifs <;> rfl

/-! ## Upload-pipeline claims: queue idempotence (C9) -/

/-- C9: enqueuing is idempotent and duplicate-free by path: adding an
already-present path leaves the queue unchanged, adding the same path
twice yields exactly one entry for it, and `populateUploadQueue` over a
store whose segments are all already queued adds nothing. -/
theorem spec_c9 :
    (∀ (q : List String) (p : String), p ∈ q → addToUploadQueue q p = q) ∧
    (∀ (q : List String) (p : String), p ∉ q →
      (addToUploadQueue (addToUploadQueue q p) p).count p = 1) ∧
    (∀ (files : List VFile) (q : List String),
      (∀ f ∈ files, isAvi f = true → pathOf f ∈ q) →
      populateUploadQueue files q = q) := by
  have hmem : ∀ (q : List String) (p : String), p ∈ q → addToUploadQueue q p = q := by
    intro q p h
    unfold addToUploadQueue
    rw [if_pos h]
  refine ⟨hmem, ?_, ?_⟩
  · intro q p h
    have h1 : addToUploadQueue q p = q ++ [p] := by
      unfold addToUploadQueue
      rw [if_neg h]
    rw [h1, hmem (q ++ [p]) p (List.mem_append_right q (List.mem_singleton.mpr rfl))]
    rw [List.count_append]
    simp [List.count_eq_zero.mpr h]
  · intro files
    induction files with
    | nil => intro q h; rfl
    | cons f fs ih =>
      intro q h
      unfold populateUploadQueue
      rw [List.foldl_cons]
      by_cases ha : isAvi f = true
      · rw [if_pos ha, hmem q (pathOf f) (h f (List.mem_cons_self f fs) ha)]
        exact ih q (fun g hg => h g (List.mem_cons_of_mem f hg))
      · rw [if_neg ha]
        exact ih q (fun g hg => h g (List.mem_cons_of_mem f hg))

/-- Witness for C9 at concrete queues: re-adding `/a.avi` is a no-op,
double-adding yields one entry, and re-scanning a store whose only video
is already queued adds nothing. -/
theorem spec_c9_witness :
    (addToUploadQueue ["/a.avi"] "/a.avi" = ["/a.avi"] ∧
      (addToUploadQueue (addToUploadQueue [] "/a.avi") "/a.avi").count "/a.avi" = 1) ∧
    populateUploadQueue [⟨"a.avi", 7, 1⟩] ["/a.avi"] = ["/a.avi"] :=
  ⟨⟨spec_c9.1 ["/a.avi"] "/a.avi" (by decide),
      spec_c9.2.1 [] "/a.avi" (by decide)⟩,
    spec_c9.2.2 [⟨"a.avi", 7, 1⟩] ["/a.avi"] (by decide)⟩

/-! ## Upload-pipeline claims: the pause guard window (C8) -/

/-- C8 as stated is false: with the next recording already overdue
(elapsed 10000 ms against a 4000 ms interval, so the signed time
remaining is negative), the unsigned 32-bit subtraction wraps to a huge
value and `shouldPauseUpload` returns `false`, not `true`. -/
theorem spec_c8_cex :
    (0 : Nat) ≤ 10000 ∧ 4000 < 10000 - 0 ∧
    shouldPauseUpload 10000 0 4000 = false := by
  decide

/-- C8 (amended): `shouldPauseUpload` compares the 32-bit wrapped value
`captureInterval - (now - lastCaptureTime)` against the 5-second guard:
while the next recording is not yet due, it returns `true` exactly when
the true time remaining is at most 5000 ms (due-now included); once the
recording is overdue, the subtraction wraps and it returns `false`
(unless overdue by at least `2^32 - 5000` ms). -/
theorem spec_c8 (now lastCaptureTime captureInterval : Nat)
    (h1 : lastCaptureTime ≤ now) (h2 : now - lastCaptureTime < 4294967296)
    (h3 : captureInterval < 4294967296) :
    (now - lastCaptureTime ≤ captureInterval →
      (shouldPauseUpload now lastCaptureTime captureInterval = true ↔
        captureInterval - (now - lastCaptureTime) ≤ 5000)) ∧
    (captureInterval < now - lastCaptureTime →
      now - lastCaptureTime - captureInterval < 4294962296 →
      shouldPauseUpload now lastCaptureTime captureInterval = false) := by
  have hsub : sub32 now lastCaptureTime = now - lastCaptureTime := by
    unfold sub32
    omega
  constructor
  · intro hle
    rw [shouldPauseUpload, hsub]
    rw [decide_eq_true_iff]
    unfold sub32
    constructor
    · intro h
      omega
    · intro h
      omega
  · intro hover hbound
    rw [shouldPauseUpload, hsub]
    rw [decide_eq_false_iff_not]
    unfold sub32
    omega

/-- Witness for C8: 4000 ms remaining out of an 8000 ms interval is
within the guard window (pause), and 6000 ms overdue yields no pause. -/
theorem spec_c8_witness :
    (shouldPauseUpload 10000 6000 8000 = true ↔ 8000 - (10000 - 6000) ≤ 5000) ∧
    shouldPauseUpload 16000 2000 8000 = false :=
  ⟨(spec_c8 10000 6000 8000 (by decide) (by decide) (by decide)).1 (by decide),
    (spec_c8 16000 2000 8000 (by decide) (by decide) (by decide)).2 (by decide) (by decide)⟩

/-! ## Upload-pipeline claims: fail-fast entry guard (C10) -/

/-- C10: when the link is down or pause was already requested at entry,
`uploadFileInChunks` returns failure immediately: the file is never
opened, no connection is attempted, nothing is sent and nothing is
deleted. -/
theorem spec_c10 (deleteAfterUpload : Bool) (env : AttemptEnv)
    (h : env.wifi = false ∨ env.paused 0 = true) :
    uploadFileInChunks deleteAfterUpload env =
      ⟨false, false, false, 0, 0, false⟩ := by
  unfold uploadFileInChunks
  rw [if_pos h]

/-- Environment with the WiFi link down used by the C10 witness. -/
def linkDownEnv : AttemptEnv :=
  ⟨false, fun _ => false, true, 2048, true, 1000000,
    fun _ => true, fun _ => true, "HTTP/1.1 200 OK"⟩

/-- Witness for C10 with the link down. -/
theorem spec_c10_witness :
    uploadFileInChunks true linkDownEnv = ⟨false, false, false, 0, 0, false⟩ :=
  spec_c10 true linkDownEnv (Or.inl rfl)

/-! ## Upload-pipeline claims: the session-state invariant (C7) -/

theorem sessionInv_pauseUpload {st : Uploader} (h : SessionInv st) :
    SessionInv (pauseUpload st) := by
  unfold pauseUpload
  split_ifs with hc
  · exact ⟨h.1, fun _ => hc.1⟩
  · exact h

theorem sessionInv_resumeUpload {st : Uploader} (h : SessionInv st) :
    SessionInv (resumeUpload st) := by
  unfold resumeUpload
  split_ifs with hc
  · exact ⟨h.1, fun hp => absurd hp (by simp)⟩
  · exact h

theorem sessionInv_forceResumeUploads {st : Uploader}
    (now lastCaptureTime captureDuration captureInterval : Nat) (h : SessionInv st) :
    SessionInv (forceResumeUploads now lastCaptureTime captureDuration captureInterval st) := by
  simp only [forceResumeUploads]
  split_ifs with hc
  · exact sessionInv_resumeUpload h
  · exact h

theorem sessionInv_processUploadQueue {st : Uploader} (maxRetries : Nat) (env : ProcEnv)
    (h : SessionInv st) : SessionInv (processUploadQueue maxRetries env st).1 := by
  simp only [processUploadQueue]
  split_ifs with h1 h2 h3
  · exact h
  · exact sessionInv_resumeUpload h
  · exact sessionInv_resumeUpload h
  · refine ⟨by simp, fun hp => ?_⟩
    simp only [resumeUpload_uploadPaused] at hp
    exact absurd hp (by simp)

theorem resetStuck_currentFile_iff {st : Uploader} (now : Nat) (h : SessionInv st) :
    ((resetStuckUploadState now st).currentUploadFile ≠ "" ↔
      (resetStuckUploadState now st).isUploading = true) := by
  simp only [resetStuckUploadState]
  split_ifs with h1 h2
  · simp
  · exact h.1
  · exact h.1

theorem sessionInv_resetStuck_of_not_paused {st : Uploader} (now : Nat)
    (h : SessionInv st) (hp : st.uploadPaused = false) :
    SessionInv (resetStuckUploadState now st) := by
  simp only [resetStuckUploadState]
  split_ifs with h1 h2
  · refine ⟨by simp, fun hq => ?_⟩
    simp only [hp] at hq
    exact absurd hq (by simp)
  · exact h
  · exact h

/-- C7 as stated is false: starting from a state satisfying the invariant
in which a transfer is active, paused, and stuck for more than five
minutes, the watchdog `resetStuckUploadState` clears the active flags but
leaves `uploadPaused` set, so afterwards `uploadPaused = true` with no
active transfer — the invariant is not preserved by this public
operation. -/
theorem spec_c7_cex :
    SessionInv ⟨["/a.avi"], true, true, true, "/a.avi", 0, 0⟩ ∧
    ¬ SessionInv (resetStuckUploadState 400000 ⟨["/a.avi"], true, true, true, "/a.avi", 0, 0⟩) := by
  decide

/-- C7 (amended): the session-state invariant (`currentUploadFile`
nonempty iff `isUploading`, and `uploadPaused` only while `isUploading`)
is preserved by every public operation except `resetStuckUploadState`;
that watchdog always preserves the `currentUploadFile ↔ isUploading`
half, and preserves the full invariant whenever `uploadPaused` is clear,
but can leave a dangling `uploadPaused = true` after clearing a stuck
transfer. -/
theorem spec_c7 (st : Uploader) (maxRetries : Nat) (env : ProcEnv) (p : String)
    (files : List VFile) (now lastCaptureTime captureDuration captureInterval : Nat)
    (h : SessionInv st) :
    SessionInv (pauseUpload st) ∧
    SessionInv (resumeUpload st) ∧
    SessionInv (forceResumeUploads now lastCaptureTime captureDuration captureInterval st) ∧
    SessionInv (st.addToQueue p) ∧
    SessionInv (st.populateQueue files) ∧
    SessionInv st.clearQueue ∧
    SessionInv (processUploadQueue maxRetries env st).1 ∧
    ((resetStuckUploadState now st).currentUploadFile ≠ "" ↔
      (resetStuckUploadState now st).isUploading = true) ∧
    (st.uploadPaused = false → SessionInv (resetStuckUploadState now st)) :=
  ⟨sessionInv_pauseUpload h, sessionInv_resumeUpload h,
    sessionInv_forceResumeUploads now lastCaptureTime captureDuration captureInterval h,
    ⟨h.1, h.2⟩, ⟨h.1, h.2⟩, ⟨h.1, h.2⟩,
    sessionInv_processUploadQueue maxRetries env h,
    resetStuck_currentFile_iff now h,
    fun hp => sessionInv_resetStuck_of_not_paused now h hp⟩

/-- Witness for C7 at a concrete active-and-paused state (which satisfies
the invariant), with a concrete environment. -/
theorem spec_c7_witness :
    SessionInv (pauseUpload ⟨["/a.avi"], true, true, true, "/a.avi", 0, 0⟩) ∧
    SessionInv (resumeUpload ⟨["/a.avi"], true, true, true, "/a.avi", 0, 0⟩) ∧
    SessionInv (forceResumeUploads 1000 0 500 900 ⟨["/a.avi"], true, true, true, "/a.avi", 0, 0⟩) ∧
    SessionInv (Uploader.addToQueue ⟨["/a.avi"], true, true, true, "/a.avi", 0, 0⟩ "/b.avi") ∧
    SessionInv (Uploader.populateQueue ⟨["/a.avi"], true, true, true, "/a.avi", 0, 0⟩
      [⟨"b.avi", 5, 2⟩]) ∧
    SessionInv (Uploader.clearQueue ⟨["/a.avi"], true, true, true, "/a.avi", 0, 0⟩) ∧
    SessionInv (processUploadQueue 3 ⟨true, 10000, fun _ => false, fun _ => true⟩
      ⟨["/a.avi"], true, true, true, "/a.avi", 0, 0⟩).1 ∧
    ((resetStuckUploadState 400000 ⟨["/a.avi"], true, true, true, "/a.avi", 0, 0⟩).currentUploadFile ≠ "" ↔
      (resetStuckUploadState 400000 ⟨["/a.avi"], true, true, true, "/a.avi", 0, 0⟩).isUploading = true) ∧
    ((⟨["/a.avi"], true, true, true, "/a.avi", 0, 0⟩ : Uploader).uploadPaused = false →
      SessionInv (resetStuckUploadState 400000 ⟨["/a.avi"], true, true, true, "/a.avi", 0, 0⟩)) :=
  spec_c7 ⟨["/a.avi"], true, true, true, "/a.avi", 0, 0⟩ 3
    ⟨true, 10000, fun _ => false, fun _ => true⟩ "/b.avi" [⟨"b.avi", 5, 2⟩]
    400000 0 500 900 (by decide)

/-! ## Upload-pipeline claims: retry, backoff, unconditional dequeue (C3) -/

/-- With `maxRetries = 3`, every attempt failing and the link staying up,
the retry loop performs exactly 3 attempts, with backoff delays of
2000 ms and then 4000 ms between consecutive attempts, and fails. -/
theorem retryLoop3_all_fail (attemptOk wifiAfter : Nat → Bool)
    (hA : ∀ k, attemptOk k = false) (hW : ∀ k, wifiAfter k = true) :
    retryLoop 3 attemptOk wifiAfter 0 = ⟨false, 3, 3, [2000, 4000]⟩ := by
  simp [retryLoop, hA, hW]

/-- C3: once `processUploadQueue` passes its guards (link up, queue
nonempty, no transfer in flight, throttle elapsed), the head entry is
removed from the queue unconditionally and only the head is attempted,
leaving the rest of the queue untouched; in the concrete scenario of an
unreachable endpoint (every attempt failing, link up) with
`maxRetries = 3`, exactly 3 attempts are made on the head with strictly
increasing backoff delays `[2000, 4000]`, and the call reports failure. -/
theorem spec_c3 (maxRetries : Nat) (env : ProcEnv) (st : Uploader)
    (x : String) (rest : List String)
    (hq : st.uploadQueue = x :: rest) (hw : env.wifi = true)
    (hip : st.uploadInProgress = false)
    (hth : 5000 ≤ sub32 env.now st.lastUploadAttempt) :
    ((processUploadQueue maxRetries env st).1.uploadQueue = rest ∧
      (processUploadQueue maxRetries env st).2.attemptedFile = some x) ∧
    ((∀ k, env.attemptOk k = false) → (∀ k, env.wifiAfter k = true) → maxRetries = 3 →
      (processUploadQueue maxRetries env st).2.attempts = 3 ∧
      (processUploadQueue maxRetries env st).2.delays = [2000, 4000] ∧
      List.Chain' (fun a b => a < b) (processUploadQueue maxRetries env st).2.delays ∧
      (processUploadQueue maxRetries env st).2.succeeded = false) := by
  have hguard : ¬(env.wifi = false ∨ st.uploadQueue = [] ∨ st.uploadInProgress = true) := by
    simp [hw, hq, hip]
  have hpause : ¬((resumeUpload st).uploadPaused = true) := by
    rw [resumeUpload_uploadPaused]
    simp
  have hthr : ¬(sub32 env.now (resumeUpload st).lastUploadAttempt < 5000) := by
    rw [resumeUpload_lastUploadAttempt]
    omega
  have hq1 : (resumeUpload st).uploadQueue = x :: rest := by
    rw [resumeUpload_uploadQueue, hq]
  constructor
  · constructor
    · simp only [processUploadQueue]
      rw [if_neg hguard, if_neg hpause, if_neg hthr]
      simp [hq1]
    · simp only [processUploadQueue]
      rw [if_neg hguard, if_neg hpause, if_neg hthr]
      simp [hq1]
  · intro hA hW hmax
    subst hmax
    have hr := retryLoop3_all_fail env.attemptOk env.wifiAfter hA hW
    refine ⟨?_, ?_, ?_, ?_⟩ <;>
      (simp only [processUploadQueue]
       rw [if_neg hguard, if_neg hpause, if_neg hthr]
       simp [hr])

/-- Witness for C3: queue `[x, y]`, unreachable endpoint, `maxRetries`
3 — three attempts on `x` with delays 2000 and 4000 ms, `x` dequeued,
`y` left queued. -/
theorem spec_c3_witness :
    ((processUploadQueue 3 ⟨true, 10000, fun _ => false, fun _ => true⟩
        ⟨["/x.avi", "/y.avi"], false, false, false, "", 0, 0⟩).1.uploadQueue = ["/y.avi"] ∧
      (processUploadQueue 3 ⟨true, 10000, fun _ => false, fun _ => true⟩
        ⟨["/x.avi", "/y.avi"], false, false, false, "", 0, 0⟩).2.attemptedFile = some "/x.avi") ∧
    ((processUploadQueue 3 ⟨true, 10000, fun _ => false, fun _ => true⟩
        ⟨["/x.avi", "/y.avi"], false, false, false, "", 0, 0⟩).2.attempts = 3 ∧
      (processUploadQueue 3 ⟨true, 10000, fun _ => false, fun _ => true⟩
        ⟨["/x.avi", "/y.avi"], false, false, false, "", 0, 0⟩).2.delays = [2000, 4000] ∧
      List.Chain' (fun a b => a < b)
        (processUploadQueue 3 ⟨true, 10000, fun _ => false, fun _ => true⟩
          ⟨["/x.avi", "/y.avi"], false, false, false, "", 0, 0⟩).2.delays ∧
      (processUploadQueue 3 ⟨true, 10000, fun _ => false, fun _ => true⟩
        ⟨["/x.avi", "/y.avi"], false, false, false, "", 0, 0⟩).2.succeeded = false) := by
  have h := spec_c3 3 ⟨true, 10000, fun _ => false, fun _ => true⟩
    ⟨["/x.avi", "/y.avi"], false, false, false, "", 0, 0⟩ "/x.avi" ["/y.avi"]
    rfl rfl rfl (by decide)
  exact ⟨h.1, h.2 (fun k => rfl) (fun k => rfl) rfl⟩

/-! ## Upload-pipeline claims: chunk-loop aborts (C6) -/

theorem chunkLoop_chunks_ge (env : AttemptEnv) :
    ∀ (remaining sent i : Nat), i ≤ (chunkLoop env remaining sent i).chunks := by
  intro remaining
  induction remaining using Nat.strong_induction_on with
  | _ remaining ih =>
    intro sent i
    rw [chunkLoop]
    split_ifs with h1 h2
    · have hmin : 0 < min remaining 1024 := by
        have := h1.1
        omega
      have hrec := ih (remaining - min remaining 1024) (by omega)
        (sent + min remaining 1024) (i + 1)
      omega
    · exact Nat.le_refl i
    · exact Nat.le_refl i

/-- Every chunk-loop check that was passed saw no pause request and a
live connection: the loop stops at the first failing check. -/
theorem chunkLoop_checks (env : AttemptEnv) :
    ∀ (remaining sent i u : Nat), i < u →
      u ≤ (chunkLoop env remaining sent i).chunks →
      env.paused u = false ∧ u < env.connLife := by
  intro remaining
  induction remaining using Nat.strong_induction_on with
  | _ remaining ih =>
    intro sent i u hiu hu
    rw [chunkLoop] at hu
    split_ifs at hu with h1 h2
    · have hmin : 0 < min remaining 1024 := by
        have := h1.1
        omega
      rcases Nat.eq_or_lt_of_le (Nat.succ_le_of_lt hiu) with heq | hlt
      · rw [← heq]
        exact ⟨h1.2.1, h1.2.2⟩
      · exact ih (remaining - min remaining 1024) (by omega)
          (sent + min remaining 1024) (i + 1) u hlt hu
    · have hui : u ≤ i := hu
      omega
    · have hui : u ≤ i := hu
      omega

/-- The bytes handed to the stream are bounded by 1024 per completed
chunk. -/
theorem chunkLoop_sent_bound (env : AttemptEnv) :
    ∀ (remaining sent i : Nat),
      (chunkLoop env remaining sent i).sent ≤
        sent + 1024 * ((chunkLoop env remaining sent i).chunks - i) := by
  intro remaining
  induction remaining using Nat.strong_induction_on with
  | _ remaining ih =>
    intro sent i
    rw [chunkLoop]
    split_ifs with h1 h2
    · have hmin : 0 < min remaining 1024 := by
        have := h1.1
        omega
      have hm1024 : min remaining 1024 ≤ 1024 := Nat.min_le_right _ _
      have hrec := ih (remaining - min remaining 1024) (by omega)
        (sent + min remaining 1024) (i + 1)
      have hge := chunkLoop_chunks_ge env (remaining - min remaining 1024)
        (sent + min remaining 1024) (i + 1)
      omega
    · show sent ≤ sent + 1024 * (i - i)
      omega
    · show sent ≤ sent + 1024 * (i - i)
      omega

/-- The loop never sends more than the remaining file bytes. -/
theorem chunkLoop_sent_le (env : AttemptEnv) :
    ∀ (remaining sent i : Nat),
      (chunkLoop env remaining sent i).sent ≤ sent + remaining := by
  intro remaining
  induction remaining using Nat.strong_induction_on with
  | _ remaining ih =>
    intro sent i
    rw [chunkLoop]
    split_ifs with h1 h2
    · have hmin : 0 < min remaining 1024 := by
        have := h1.1
        omega
      have hminle : min remaining 1024 ≤ remaining := Nat.min_le_left _ _
      have hrec := ih (remaining - min remaining 1024) (by omega)
        (sent + min remaining 1024) (i + 1)
      omega
    · show sent ≤ sent + remaining
      omega
    · show sent ≤ sent + remaining
      omega

/-- Environment of the C6 counterexample: healthy link, a 2048-byte
file, pause requested before the second chunk, and a server that
nevertheless answers `200`. -/
def pauseMidEnv : AttemptEnv :=
  ⟨true, fun t => decide (2 ≤ t), true, 2048, true, 1000000,
    fun _ => true, fun _ => true, "HTTP/1.1 200 OK"⟩

theorem pauseMidEnv_run :
    uploadFileInChunks true pauseMidEnv = ⟨true, true, true, 1024, 1, true⟩ := by
  have hchunk : chunkLoop pauseMidEnv 2048 0 0 = ⟨1024, 1⟩ := by
    rw [chunkLoop]
    rw [dif_pos (by decide)]
    rw [if_pos (by decide)]
    rw [show (2048 : Nat) - min 2048 1024 = 1024 from by decide,
      show (0 : Nat) + min 2048 1024 = 1024 from by decide]
    rw [chunkLoop]
    rw [dif_neg (by decide)]
  simp only [uploadFileInChunks]
  rw [if_neg (by decide), if_neg (by decide), if_neg (by decide)]
  rw [show pauseMidEnv.fileSize = 2048 from rfl, hchunk]
  decide

/-- C6 as stated is false: when pause is requested mid-body, the chunk
loop is aborted (only 1024 of 2048 bytes are sent), but the code still
sends the epilogue and reads the response, and if the server answers
`200` the attempt returns success — it is not forced to fail. -/
theorem spec_c6_cex :
    pauseMidEnv.paused 2 = true ∧
    (uploadFileInChunks true pauseMidEnv).bytesSent = 1024 ∧
    (uploadFileInChunks true pauseMidEnv).bytesSent < pauseMidEnv.fileSize ∧
    (uploadFileInChunks true pauseMidEnv).success = true := by
  rw [pauseMidEnv_run]
  decide

/-- C6 (amended): a pause request or a connection drop at check `t`
aborts the body transfer at that chunk boundary — no chunk from index
`t - 1` on is sent, so at most `1024·(t−1)` file bytes go out; an abort
caused by the connection dropping forces the attempt to fail (the
response read is empty, no status parses); and every attempt restarts
from byte zero, sending at most the file prefix it read in this call.
A pause-abort alone does not force failure: the outcome still follows
the parsed HTTP status (see the counterexample). -/
theorem spec_c6 (deleteAfterUpload : Bool) (env : AttemptEnv) (t : Nat) :
    ((env.paused t = true ∨ env.connLife ≤ t) →
      (uploadFileInChunks deleteAfterUpload env).bytesSent ≤ 1024 * (t - 1)) ∧
    (env.connLife ≤ (uploadFileInChunks deleteAfterUpload env).chunksDone + 1 →
      (uploadFileInChunks deleteAfterUpload env).success = false) ∧
    (uploadFileInChunks deleteAfterUpload env).bytesSent ≤ env.fileSize := by
  by_cases h1 : env.wifi = false ∨ env.paused 0 = true
  · refine ⟨fun _ => ?_, fun _ => ?_, ?_⟩ <;>
      simp [uploadFileInChunks, h1]
  · by_cases h2 : env.fileOk = false
    · refine ⟨fun _ => ?_, fun _ => ?_, ?_⟩ <;>
        simp [uploadFileInChunks, h1, h2]
    · by_cases h3 : env.connectOk = false
      · refine ⟨fun _ => ?_, fun _ => ?_, ?_⟩ <;>
          simp [uploadFileInChunks, h1, h2, h3]
      · have hres : uploadFileInChunks deleteAfterUpload env =
            ⟨decide (parseHttpCode (if (chunkLoop env env.fileSize 0 0).chunks + 1 <
                env.connLife then env.response else "") = 200 ∨
              parseHttpCode (if (chunkLoop env env.fileSize 0 0).chunks + 1 <
                env.connLife then env.response else "") = 201),
              true, true,
              (chunkLoop env env.fileSize 0 0).sent,
              (chunkLoop env env.fileSize 0 0).chunks,
              decide (parseHttpCode (if (chunkLoop env env.fileSize 0 0).chunks + 1 <
                  env.connLife then env.response else "") = 200 ∨
                parseHttpCode (if (chunkLoop env env.fileSize 0 0).chunks + 1 <
                  env.connLife then env.response else "") = 201) && deleteAfterUpload⟩ := by
          simp only [uploadFileInChunks]
          rw [if_neg h1, if_neg h2, if_neg h3]
        have hp0 : env.paused 0 = false := by
          rcases Bool.eq_false_or_eq_true (env.paused 0) with h | h
          · exact absurd (Or.inr h) h1
          · exact h
        refine ⟨?_, ?_, ?_⟩
        · intro habort
          rw [hres]
          show (chunkLoop env env.fileSize 0 0).sent ≤ 1024 * (t - 1)
          have hsent := chunkLoop_sent_bound env env.fileSize 0 0
          have hch : (chunkLoop env env.fileSize 0 0).chunks ≤ t - 1 := by
            by_contra hcon
            push_neg at hcon
            cases t with
            | zero =>
              rcases habort with hp | hc
              · rw [hp0] at hp
                exact Bool.noConfusion hp
              · have h1le : 1 ≤ (chunkLoop env env.fileSize 0 0).chunks := by omega
                have hck := chunkLoop_checks env env.fileSize 0 0 1 (by omega) h1le
                omega
            | succ t9 =>
              have htle : t9 + 1 ≤ (chunkLoop env env.fileSize 0 0).chunks := by omega
              have hck := chunkLoop_checks env env.fileSize 0 0 (t9 + 1) (by omega) htle
              rcases habort with hp | hc
              · rw [hck.1] at hp
                exact Bool.noConfusion hp
              · omega
          omega
        · intro hconn
          rw [hres] at hconn ⊢
          have hcn : ¬ ((chunkLoop env env.fileSize 0 0).chunks + 1 < env.connLife) := by
            have hcd : env.connLife ≤ (chunkLoop env env.fileSize 0 0).chunks + 1 := hconn
            omega
          show decide (parseHttpCode (if (chunkLoop env env.fileSize 0 0).chunks + 1 <
              env.connLife then env.response else "") = 200 ∨
            parseHttpCode (if (chunkLoop env env.fileSize 0 0).chunks + 1 <
              env.connLife then env.response else "") = 201) = false
          rw [if_neg hcn]
          decide
        · rw [hres]
          show (chunkLoop env env.fileSize 0 0).sent ≤ env.fileSize
          have := chunkLoop_sent_le env env.fileSize 0 0
          omega

/-- Environment of the C6 witness: the connection dies at the third
check, so the transfer aborts at a chunk boundary and, because the
response can no longer be read, the attempt fails. -/
def connDropEnv : AttemptEnv :=
  ⟨true, fun _ => false, true, 4096, true, 3,
    fun _ => true, fun _ => true, "HTTP/1.1 200 OK"⟩

theorem connDropEnv_chunks : chunkLoop connDropEnv 4096 0 0 = ⟨2048, 2⟩ := by
  rw [chunkLoop]
  rw [dif_pos (by decide)]
  rw [if_pos (by decide)]
  rw [show (4096 : Nat) - min 4096 1024 = 3072 from by decide,
    show (0 : Nat) + min 4096 1024 = 1024 from by decide]
  rw [chunkLoop]
  rw [dif_pos (by decide)]
  rw [if_pos (by decide)]
  rw [show (3072 : Nat) - min 3072 1024 = 2048 from by decide,
    show (1024 : Nat) + min 3072 1024 = 2048 from by decide]
  rw [chunkLoop]
  rw [dif_neg (by decide)]

theorem connDropEnv_run :
    uploadFileInChunks true connDropEnv = ⟨false, true, true, 2048, 2, false⟩ := by
  simp only [uploadFileInChunks]
  rw [if_neg (by decide), if_neg (by decide), if_neg (by decide)]
  rw [show connDropEnv.fileSize = 4096 from rfl, connDropEnv_chunks]
  decide

/-- Witness for C6, exercising a connection-drop abort: at most two
chunks are sent, the attempt fails, and no more than the file is sent. -/
theorem spec_c6_witness :
    (uploadFileInChunks true connDropEnv).bytesSent ≤ 1024 * (3 - 1) ∧
    (uploadFileInChunks true connDropEnv).success = false ∧
    (uploadFileInChunks true connDropEnv).bytesSent ≤ connDropEnv.fileSize := by
  have h := spec_c6 true connDropEnv 3
  refine ⟨h.1 (Or.inr (by decide)), h.2.1 ?_, h.2.2⟩
  rw [connDropEnv_run]
  decide

end SkyMonitor
